/- Verification of the CI helper scripts in this repository:
   `ci/check_mr_logs.py` (commit-message template validator) and
   `ci/code_format_helper.py` (formatter dispatch).  The Python code is
   shallow-embedded: strings are lists of characters, every function is a
   computable Lean definition mirroring the corresponding Python function,
   and Python exceptions (IndexError from out-of-range list indexing) are
   modelled by `Option` (`none` = the call raises). -/
import Mathlib

set_option maxRecDepth 10000

/-- Python strings are modelled as lists of characters. -/
abbrev Text := List Char

/-- Convenience: the character list of a Lean string literal. -/
def str (s : String) : Text := s.data

/-- Python `str.isspace` characters relevant to `str.split()`/`str.strip()`:
    space, tab, newline, carriage return, vertical tab, form feed. -/
def pyIsSpace (c : Char) : Bool :=
  c == ' ' || c == '\t' || c == '\n' || c == '\r' ||
    c == Char.ofNat 11 || c == Char.ofNat 12

/-- Regex `\w` (ASCII reading): letters, digits and underscore. -/
def isWordChar (c : Char) : Bool := c.isAlphanum || c == '_'

/-- Regex class `[A-Z0-9]`: uppercase ASCII letters and digits. -/
def isUpperAlnum (c : Char) : Bool := c.isUpper || c.isDigit

/-- Python `s.split(sep)` for a one-character separator: keeps empty
    fields, `"".split(sep) == [""]`. -/
def splitOnChar (sep : Char) : Text → List Text
  | [] => [[]]
  | c :: cs =>
    if c = sep then [] :: splitOnChar sep cs
    else
      match splitOnChar sep cs with
      | [] => [[c]]
      | s :: ss => (c :: s) :: ss

/-- Python `commit_msg.split("\n")`. -/
def splitLines (s : Text) : List Text := splitOnChar '\n' s

/-- Helper for `pySplitWs`: accumulates the current token in reverse. -/
def splitWsAux : Text → Text → List Text
  | [], acc => if acc.isEmpty then [] else [acc.reverse]
  | c :: cs, acc =>
    if pyIsSpace c then
      if acc.isEmpty then splitWsAux cs [] else acc.reverse :: splitWsAux cs []
    else splitWsAux cs (c :: acc)

/-- Python `s.split()` (no argument): split on whitespace runs, dropping
    empty fields. -/
def pySplitWs (s : Text) : List Text := splitWsAux s []

/-- Remove trailing Python whitespace (the right half of `str.strip()`). -/
def rstripFn (s : Text) : Text := (s.reverse.dropWhile pyIsSpace).reverse

/-- Python `s.strip()`: remove leading and trailing whitespace. -/
def pyStrip (s : Text) : Text := (rstripFn s).dropWhile pyIsSpace

/-- Python `s.strip(".")`: remove leading and trailing periods. -/
def pyStripDots (s : Text) : Text :=
  ((s.dropWhile (fun c => c == '.')).reverse.dropWhile (fun c => c == '.')).reverse

/-- Python `",".join(l)`. -/
def joinComma : List Text → Text
  | [] => []
  | [x] => x
  | x :: y :: ys => x ++ ',' :: joinComma (y :: ys)

/- ===================== ci/check_mr_logs.py ===================== -/

/-- `re.match(r"^(\w+)\[(\w+)\]: (.+)$", header)` viewed as a Boolean
    acceptor.  Because `[` and `]` are not word characters the regex is
    deterministic: the greedy `\w+` runs are the maximal word-character
    runs.  `.` does not match a newline (inputs here are single lines of
    a split, so they never contain one). -/
def headerMatches (l : Text) : Bool :=
  if (l.takeWhile isWordChar).isEmpty then false
  else
    match l.dropWhile isWordChar with
    | '[' :: r2 =>
      if (r2.takeWhile isWordChar).isEmpty then false
      else
        match r2.dropWhile isWordChar with
        | ']' :: ':' :: ' ' :: rest => !rest.isEmpty && rest.all (fun c => c != '\n')
        | _ => false
    | _ => false

/-- `check_header` from check_mr_logs.py: the first non-empty line must
    match the header regex; an all-empty message fails with its own
    reason. -/
def check_header (commit_msg : Text) : Bool × Text :=
  match (splitLines commit_msg).filter (fun l => !l.isEmpty) with
  | [] => (false, str "Empty commit message")
  | header :: _ =>
    if headerMatches header then (true, str "")
    else (false, str "Invalid header format. Should be: <type>[<SCOPE>]: <short-summary>")

/-- `check_problem_task_section`: some line starts with `Problem:` or
    `Task:` (the Python loop with break is the same as an existence
    test). -/
def check_problem_task_section (commit_msg : Text) : Bool × Text :=
  if (splitLines commit_msg).any
      (fun l => List.isPrefixOf (str "Problem:") l || List.isPrefixOf (str "Task:") l) then
    (true, str "")
  else (false, str "Missing 'Problem/Task:' section")

/-- `check_solution_section`: some line starts with `Solution:`. -/
def check_solution_section (commit_msg : Text) : Bool × Text :=
  if (splitLines commit_msg).any (fun l => List.isPrefixOf (str "Solution:") l) then
    (true, str "")
  else (false, str "Missing 'Solution:' section")

/-- `check_test_section`: some line starts with `Test:` (the Python loop
    uses `continue`, which does not change the outcome). -/
def check_test_section (commit_msg : Text) : Bool × Text :=
  if (splitLines commit_msg).any (fun l => List.isPrefixOf (str "Test:") l) then
    (true, str "")
  else (false, str "Missing 'Test:' section")

/-- `re.match(r"^[A-Z0-9]+-[0-9]+", jira)` as a Boolean acceptor (a prefix
    match: anything may follow the digits).  `-` is not in `[A-Z0-9]`, so
    the greedy first run is the maximal run. -/
def jiraMatch (s : Text) : Bool :=
  if (s.takeWhile isUpperAlnum).isEmpty then false
  else
    match s.dropWhile isUpperAlnum with
    | '-' :: c :: _ => c.isDigit
    | _ => false

/-- The loop of `check_jira_section`: find the first line starting with
    `JIRA:` and extract `line.split(":")[1].strip()`, breaking there.
    Outer `none` would be an IndexError (provably impossible, since the
    line contains a colon); inner `none` means no `JIRA:` line. -/
def jiraLoop : List Text → Option (Option Text)
  | [] => some none
  | l :: rest =>
    if List.isPrefixOf (str "JIRA:") l then
      ((splitOnChar ':' l)[1]?).map (fun seg => some (pyStrip seg))
    else jiraLoop rest

/-- `check_jira_section` from check_mr_logs.py. -/
def check_jira_section (commit_msg : Text) : Option (Bool × Text) :=
  (jiraLoop (splitLines commit_msg)).map (fun found =>
    match found with
    | none => (false, str "Missing 'JIRA:' section")
    | some jira =>
      if jiraMatch jira then (true, str "")
      else (false, str "JIRA reference should be in format: <PROJ-123>"))

/-- The loop of `check_author_email`: every line starting with `Author:`
    overwrites `author`/`email` with `line.split()[1].strip()` and
    `line.split()[2].strip()` (the loop continues, so the last such line
    wins).  Outer `none` models the IndexError raised when an `Author:`
    line has fewer than three whitespace-separated tokens; inner `none`
    means no `Author:` line was seen. -/
def authorLoop : List Text → Option (Option (Text × Text))
  | [] => some none
  | l :: rest =>
    if List.isPrefixOf (str "Author:") l then
      match pySplitWs l with
      | _ :: a :: e :: _ =>
        match authorLoop rest with
        | none => none
        | some none => some (some (pyStrip a, pyStrip e))
        | some (some p) => some (some p)
      | _ => none
    else authorLoop rest

/-- `check_author_email` from check_mr_logs.py. -/
def check_author_email (commit_msg : Text) : Option (Bool × Text) :=
  (authorLoop (splitLines commit_msg)).map (fun found =>
    match found with
    | none => (false, str "Missing author or email")
    | some (author, email) =>
      if ('<' :: author ++ str "@is.ic>") = email then (true, str "")
      else (false, author ++ ' ' :: email ++ str ": email does not format: <username>@is.ic"))

/-- The fixed check list of `validate_commit`, in source order; the four
    checks that cannot raise are wrapped into the `Option` type of the
    two that can. -/
def checks : List (Text → Option (Bool × Text)) :=
  [fun m => some (check_header m),
   fun m => some (check_problem_task_section m),
   fun m => some (check_solution_section m),
   fun m => some (check_test_section m),
   check_jira_section,
   check_author_email]

/-- The accumulation loop of `validate_commit`: every check runs, failing
    checks append their message, an exception aborts the whole run. -/
def runChecks : List (Text → Option (Bool × Text)) → Text → Option (List Text)
  | [], _ => some []
  | c :: cs, msg =>
    match c msg with
    | none => none
    | some (ok, e) => (runChecks cs msg).map (fun es => if ok then es else e :: es)

/-- `validate_commit` from check_mr_logs.py. -/
def validate_commit (commit_msg : Text) : Option (Bool × List Text) :=
  (runChecks checks commit_msg).map (fun errs =>
    if errs.isEmpty then (true, []) else (false, errs))

/- ===================== ci/code_format_helper.py ===================== -/

/-- Model of `os.path.splitext` restricted to a basename (no `/`): the
    extension starts at the last `.` provided some earlier character of
    the basename is not a `.` (leading dots never start an extension:
    `.bashrc` has no extension, `a..b` splits as `a.` / `.b`). -/
def splitextBase (b : Text) : Text × Text :=
  let pre := b.takeWhile (fun c => c == '.')
  let core := b.dropWhile (fun c => c == '.')
  match core.reverse.dropWhile (fun c => c != '.') with
  | [] => (b, [])
  | _ :: stemRev =>
    (pre ++ stemRev.reverse, '.' :: (core.reverse.takeWhile (fun c => c != '.')).reverse)

/-- Model of `os.path.splitext` (posix): only the part after the last `/`
    can carry an extension. -/
def splitext (p : Text) : Text × Text :=
  let rev := p.reverse
  let baseRev := rev.takeWhile (fun c => c != '/')
  let dirRev := rev.dropWhile (fun c => c != '/')
  let ne := splitextBase baseRev.reverse
  (dirRev.reverse ++ ne.1, ne.2)

/-- Result of one `subprocess.run` call: exit code plus captured output
    streams. -/
structure ProcResult where
  returncode : Int
  stdout : Text
  stderr : Text

/-- The tri-state tool outcome named in the design document. -/
inductive ToolRunResult where
  | Clean : ToolRunResult
  | NeedsChanges : ToolRunResult
  | InfrastructureFailure : ToolRunResult
deriving DecidableEq

/-- Classification of a `format_run` result (the `diff` value inspected by
    `FormatHelper.run`): `None` is Clean, a non-empty diff is
    NeedsChanges, an empty diff from a failed run is
    InfrastructureFailure. -/
def classifyDiff (diff : Option Text) : ToolRunResult :=
  match diff with
  | none => ToolRunResult.Clean
  | some d => if 0 < d.length then ToolRunResult.NeedsChanges
              else ToolRunResult.InfrastructureFailure

/-- Warning printed by `FormatHelper.run` when a formatter produced a
    non-empty diff. -/
def needsChangesWarning (friendly_name name : Text) : Text :=
  str "Warning: " ++ friendly_name ++ str ", " ++ name ++
    str " detected some issues with your code formatting..."

/-- Warning printed by `FormatHelper.run` when a formatter failed without
    producing a diff. -/
def infraWarning (friendly_name : Text) : Text :=
  str "Warning: The " ++ friendly_name ++
    str " failed without printing a diff. Check the logs for stderr output. :warning:"

/-- `FormatHelper.run`: success flag plus the list of warnings printed,
    as a function of the `format_run` result. -/
def formatHelperRun (friendly_name name : Text) (diff : Option Text) : Bool × List Text :=
  match diff with
  | none => (true, [])
  | some d =>
    if 0 < d.length then (false, [needsChangesWarning friendly_name name])
    else (false, [infraWarning friendly_name])

namespace ClangFormatHelper

/-- `ClangFormatHelper.name`. -/
def name : Text := str "clang-format"

/-- `ClangFormatHelper.friendly_name`. -/
def friendly_name : Text := str "C/C++ code formatter"

/-- The fixed extension allow-list of `filter_changed_files`. -/
def allowedExtensions : List Text :=
  [str ".cpp", str ".c", str ".cc", str ".h", str ".hpp",
   str ".hxx", str ".cxx", str ".inc", str ".cppm", str ".cl"]

/-- `ClangFormatHelper.should_include_extensionless_file`. -/
def should_include_extensionless_file (path : Text) : Bool :=
  List.isPrefixOf (str "libcxx/include") path

/-- `ClangFormatHelper.filter_changed_files` (the Python append loop,
    written as structural recursion). -/
def filter_changed_files : List Text → List Text
  | [] => []
  | path :: rest =>
    let ext := (splitext path).2
    if ext ∈ allowedExtensions then path :: filter_changed_files rest
    else if ext.isEmpty && should_include_extensionless_file path then
      path :: filter_changed_files rest
    else filter_changed_files rest

/-- The extension-gathering loop of `format_run`: a set of the distinct
    values `ext.strip(".")` over the selected files.  CPython iterates a
    `set` in an unspecified order; we model it as a first-occurrence
    deduplicated list (every property we state about it is
    order-independent). -/
def gatherAux : List Text → List Text → List Text
  | [], acc => acc
  | f :: fs, acc =>
    let e := pyStripDots (splitext f).2
    gatherAux fs (if e ∈ acc then acc else acc ++ [e])

/-- The distinct stripped extensions of the selected files. -/
def gatherExtensions (cpp_files : List Text) : List Text := gatherAux cpp_files []

/-- The value passed after `--extensions` in the `git-clang-format`
    command line: the comma-join of the gathered extension set. -/
def extensionsValue (cpp_files : List Text) : Text := joinComma (gatherExtensions cpp_files)

/-- The command line built by `ClangFormatHelper.format_run` (the
    subprocess itself is external). -/
def cf_cmd (clang_fmt_path : Text) (revArgs : List Text) (cpp_files : List Text) : List Text :=
  [clang_fmt_path, str "--diff"] ++ revArgs ++
    [str "--extensions", extensionsValue cpp_files, str "--"] ++ cpp_files

/-- `ClangFormatHelper.format_run` with the one subprocess call supplied
    as an oracle: empty selection returns `None` (skip); a non-zero exit
    returns the captured stdout, otherwise `None`. -/
def format_run (changed_files : List Text) (proc : ProcResult) : Option Text :=
  let cpp_files := filter_changed_files changed_files
  if cpp_files.isEmpty then none
  else if proc.returncode ≠ 0 then some proc.stdout
  else none

/-- `ClangFormatHelper.run` = the generic `FormatHelper.run` applied to
    this helper's `format_run` result. -/
def run (changed_files : List Text) (proc : ProcResult) : Bool × List Text :=
  formatHelperRun friendly_name name (format_run changed_files proc)

end ClangFormatHelper

namespace RuffFormatHelper

/-- `RuffFormatHelper.name`. -/
def name : Text := str "ruff"

/-- `RuffFormatHelper.friendly_name`. -/
def friendly_name : Text := str "Python code formatter"

/-- `RuffFormatHelper.filter_changed_files`: keep exactly the `.py`
    files. -/
def filter_changed_files : List Text → List Text
  | [] => []
  | path :: rest =>
    if (splitext path).2 = str ".py" then path :: filter_changed_files rest
    else filter_changed_files rest

/-- `RuffFormatHelper.format_run` with the subprocess call supplied as an
    oracle (on a zero exit the stdout is printed as information and
    `None` is returned). -/
def format_run (changed_files : List Text) (proc : ProcResult) : Option Text :=
  let py_files := filter_changed_files changed_files
  if py_files.isEmpty then none
  else if proc.returncode ≠ 0 then some proc.stdout
  else none

/-- `RuffFormatHelper.run` = the generic `FormatHelper.run` applied to
    this helper's `format_run` result. -/
def run (changed_files : List Text) (proc : ProcResult) : Bool × List Text :=
  formatHelperRun friendly_name name (format_run changed_files proc)

end RuffFormatHelper

/- ============ spec-side definitions (from the claims' words) ============ -/

/-- Modelled from the spec: a line of shape
    `<word-chars>[<word-chars>]: <rest>` — nonempty word-character runs
    around the bracket, a literal `]: `, and a nonempty remainder (no
    newline, since `.` does not match one). -/
def HeaderShape (l : Text) : Prop :=
  ∃ w1 w2 rest : Text,
    l = w1 ++ '[' :: w2 ++ ']' :: ':' :: ' ' :: rest ∧
    w1 ≠ [] ∧ w1.all isWordChar = true ∧
    w2 ≠ [] ∧ w2.all isWordChar = true ∧
    rest ≠ [] ∧ rest.all (fun c => c ≠ '\n')

/-- Modelled from the spec: a JIRA reference of shape
    `<uppercase-alnum>-<digits>` followed by anything (the regex is a
    prefix match). -/
def JiraShape (t : Text) : Prop :=
  ∃ u d r : Text,
    t = u ++ '-' :: d ++ r ∧
    u ≠ [] ∧ u.all isUpperAlnum = true ∧
    d ≠ [] ∧ d.all Char.isDigit = true

/-- The failure message of a check result, if any ([] for a passing or
    raising check). -/
def optFail : Option (Bool × Text) → List Text
  | some (false, e) => [e]
  | _ => []

/-- Modelled from the spec: the failure messages of exactly the failing
    checks, in the fixed check order header, Problem/Task, Solution,
    Test, JIRA, Author/email. -/
def failuresOf (commit_msg : Text) : List Text :=
  optFail (some (check_header commit_msg)) ++
  optFail (some (check_problem_task_section commit_msg)) ++
  optFail (some (check_solution_section commit_msg)) ++
  optFail (some (check_test_section commit_msg)) ++
  optFail (check_jira_section commit_msg) ++
  optFail (check_author_email commit_msg)

/-- Modelled from the spec: the native-code filter predicate — extension
    in the fixed allow-list, or no extension and the fixed path prefix. -/
def clangSelects (path : Text) : Bool :=
  (splitext path).2 ∈ ClangFormatHelper.allowedExtensions ||
    ((splitext path).2.isEmpty && List.isPrefixOf (str "libcxx/include") path)

/-- Modelled from the spec: the Python filter predicate — extension
    exactly `.py`. -/
def ruffSelects (path : Text) : Bool := (splitext path).2 = str ".py"

/- ===================== helper lemmas ===================== -/

theorem mem_takeWhile_pred (p : Char → Bool) (l : Text) :
    ∀ c ∈ l.takeWhile p, p c = true := by
  induction l with
  | nil => simp
  | cons c cs ih =>
    rw [List.takeWhile_cons]
    by_cases hc : p c = true
    · simp only [hc, if_true]
      intro x hx
      rcases List.mem_cons.mp hx with rfl | hx'
      · exact hc
      · exact ih x hx'
    · simp [hc]

theorem takeWhile_append_all (p : Char → Bool) (a b : Text)
    (ha : ∀ c ∈ a, p c = true) : (a ++ b).takeWhile p = a ++ b.takeWhile p := by
  induction a with
  | nil => simp
  | cons c cs ih =>
    have hc : p c = true := ha c (List.mem_cons_self c cs)
    simp only [List.cons_append, List.takeWhile_cons, hc, if_true]
    rw [ih (fun x hx => ha x (List.mem_cons_of_mem _ hx))]

theorem dropWhile_append_all (p : Char → Bool) (a b : Text)
    (ha : ∀ c ∈ a, p c = true) : (a ++ b).dropWhile p = b.dropWhile p := by
  induction a with
  | nil => simp
  | cons c cs ih =>
    have hc : p c = true := ha c (List.mem_cons_self c cs)
    simp only [List.cons_append, List.dropWhile_cons, hc, if_true]
    exact ih (fun x hx => ha x (List.mem_cons_of_mem _ hx))

theorem takeWhile_append_stop (p : Char → Bool) (a : Text) (c : Char) (b : Text)
    (ha : ∀ x ∈ a, p x = true) (hc : p c = false) :
    (a ++ c :: b).takeWhile p = a := by
  rw [takeWhile_append_all p a _ ha, List.takeWhile_cons, hc]
  simp

theorem dropWhile_append_stop (p : Char → Bool) (a : Text) (c : Char) (b : Text)
    (ha : ∀ x ∈ a, p x = true) (hc : p c = false) :
    (a ++ c :: b).dropWhile p = c :: b := by
  rw [dropWhile_append_all p a _ ha, List.dropWhile_cons, hc]
  simp

theorem dropWhile_of_forall_false (p : Char → Bool) (l : Text)
    (h : ∀ c ∈ l, p c = false) : l.dropWhile p = l := by
  cases l with
  | nil => rfl
  | cons c cs => simp [List.dropWhile_cons, h c (List.mem_cons_self c cs)]

theorem dropWhile_append_cons (p : Char → Bool) (y : Text) (c : Char) (zs : Text)
    (hc : p c = false) : (y ++ c :: zs).dropWhile p = y.dropWhile p ++ c :: zs := by
  induction y with
  | nil => simp [List.dropWhile_cons, hc]
  | cons a ys ih =>
    by_cases ha : p a = true
    · simp [List.dropWhile_cons, ha, ih]
    · simp [List.dropWhile_cons, Bool.not_eq_true _ ▸ ha]

theorem rstripFn_of_forall (l : Text) (h : ∀ c ∈ l, pyIsSpace c = false) :
    rstripFn l = l := by
  unfold rstripFn
  rw [dropWhile_of_forall_false _ _ (fun c hc => h c (List.mem_reverse.mp hc))]
  simp

theorem pyStrip_of_forall (l : Text) (h : ∀ c ∈ l, pyIsSpace c = false) :
    pyStrip l = l := by
  unfold pyStrip
  rw [rstripFn_of_forall l h]
  exact dropWhile_of_forall_false _ _ h

theorem rstripFn_append (p0 : Text) (c : Char) (x : Text)
    (hc : pyIsSpace c = false) :
    rstripFn ((p0 ++ [c]) ++ x) = (p0 ++ [c]) ++ rstripFn x := by
  unfold rstripFn
  rw [List.reverse_append, List.reverse_append p0 [c]]
  show ((x.reverse ++ ([c].reverse ++ p0.reverse)).dropWhile pyIsSpace).reverse = _
  rw [show [c].reverse ++ p0.reverse = c :: p0.reverse by simp,
    dropWhile_append_cons pyIsSpace x.reverse c p0.reverse hc,
    List.reverse_append, List.reverse_cons, List.reverse_reverse]

theorem splitWsAux_tokens_nonspace (l : Text) :
    ∀ (acc : Text), (∀ c ∈ acc, pyIsSpace c = false) →
      ∀ tk ∈ splitWsAux l acc, ∀ c ∈ tk, pyIsSpace c = false := by
  induction l with
  | nil =>
    intro acc hacc tk htk c hc
    unfold splitWsAux at htk
    by_cases he : acc.isEmpty = true
    · simp [he] at htk
    · simp [he] at htk
      subst htk
      exact hacc c (List.mem_reverse.mp hc)
  | cons a as ih =>
    intro acc hacc tk htk c hc
    unfold splitWsAux at htk
    by_cases ha : pyIsSpace a = true
    · by_cases he : acc.isEmpty = true
      · simp [ha, he] at htk
        exact ih [] (by simp) tk htk c hc
      · simp [ha, he] at htk
        rcases htk with rfl | htk'
        · exact hacc c (List.mem_reverse.mp hc)
        · exact ih [] (by simp) tk htk' c hc
    · simp [ha] at htk
      refine ih (a :: acc) ?_ tk htk c hc
      intro x hx
      rcases List.mem_cons.mp hx with rfl | hx'
      · exact Bool.not_eq_true _ ▸ ha
      · exact hacc x hx'

theorem pySplitWs_tokens_nonspace (l : Text) :
    ∀ tk ∈ pySplitWs l, ∀ c ∈ tk, pyIsSpace c = false :=
  splitWsAux_tokens_nonspace l [] (by simp)

theorem splitOnChar_ne_nil (sep : Char) (l : Text) : splitOnChar sep l ≠ [] := by
  cases l with
  | nil => simp [splitOnChar]
  | cons c cs =>
    by_cases hc : c = sep
    · simp [splitOnChar, hc]
    · cases h : splitOnChar sep cs <;> simp [splitOnChar, hc, h]

theorem splitOnChar_append_sep (sep : Char) (a b : Text) :
    splitOnChar sep (a ++ sep :: b) = splitOnChar sep a ++ splitOnChar sep b := by
  induction a with
  | nil => simp [splitOnChar]
  | cons c cs ih =>
    by_cases hc : c = sep
    · simp [splitOnChar, hc, ih]
    · obtain ⟨s0, ss0, h0⟩ :
          ∃ s0 ss0, splitOnChar sep cs = s0 :: ss0 := by
        cases h : splitOnChar sep cs with
        | nil => exact absurd h (splitOnChar_ne_nil sep cs)
        | cons x xs => exact ⟨x, xs, rfl⟩
      simp [splitOnChar, hc, ih, h0]

theorem splitOnChar_of_forall_ne (sep : Char) (l : Text)
    (h : ∀ c ∈ l, c ≠ sep) : splitOnChar sep l = [l] := by
  induction l with
  | nil => rfl
  | cons c cs ih =>
    have hc : ¬ c = sep := h c (List.mem_cons_self c cs)
    simp [splitOnChar, hc, ih (fun x hx => h x (List.mem_cons_of_mem _ hx))]

theorem splitOnChar_head (sep : Char) (l : Text) :
    ∃ ss, splitOnChar sep l = l.takeWhile (fun c => c != sep) :: ss := by
  induction l with
  | nil => exact ⟨[], rfl⟩
  | cons c cs ih =>
    by_cases hc : c = sep
    · refine ⟨splitOnChar sep cs, ?_⟩
      simp [splitOnChar, hc, List.takeWhile_cons]
    · obtain ⟨ss, hss⟩ := ih
      refine ⟨ss, ?_⟩
      simp [splitOnChar, hc, hss, List.takeWhile_cons, bne_iff_ne, hc]

theorem splitOnChar_length_two_le (sep : Char) (l : Text) (h : sep ∈ l) :
    2 ≤ (splitOnChar sep l).length := by
  obtain ⟨s, t, rfl⟩ := List.append_of_mem h
  rw [splitOnChar_append_sep]
  rw [List.length_append]
  have h1 := List.length_pos.mpr (splitOnChar_ne_nil sep s)
  have h2 := List.length_pos.mpr (splitOnChar_ne_nil sep t)
  omega

theorem getElem1_eq_some {α : Type} (l : List α) (h : 2 ≤ l.length) :
    ∃ x, l[1]? = some x := by
  cases l with
  | nil => simp at h
  | cons a l' =>
    cases l' with
    | nil => simp at h
    | cons b l'' => exact ⟨b, by simp⟩

theorem jiraLoop_append (pre rest : List Text)
    (h : ∀ x ∈ pre, List.isPrefixOf (str "JIRA:") x = false) :
    jiraLoop (pre ++ rest) = jiraLoop rest := by
  induction pre with
  | nil => simp
  | cons l ls ih =>
    have hl : List.isPrefixOf (str "JIRA:") l = false := h l (List.mem_cons_self l ls)
    simp only [List.cons_append, jiraLoop, hl]
    simp only [Bool.false_eq_true, if_false]
    exact ih (fun x hx => h x (List.mem_cons_of_mem _ hx))

theorem jiraLoop_of_none (ls : List Text)
    (h : ∀ x ∈ ls, List.isPrefixOf (str "JIRA:") x = false) :
    jiraLoop ls = some none := by
  rw [← List.append_nil ls, jiraLoop_append ls [] h]
  rfl

theorem authorLoop_append (pre rest : List Text)
    (h : ∀ x ∈ pre, List.isPrefixOf (str "Author:") x = false) :
    authorLoop (pre ++ rest) = authorLoop rest := by
  induction pre with
  | nil => simp
  | cons l ls ih =>
    have hl : List.isPrefixOf (str "Author:") l = false := h l (List.mem_cons_self l ls)
    simp only [List.cons_append, authorLoop, hl]
    simp only [Bool.false_eq_true, if_false]
    exact ih (fun x hx => h x (List.mem_cons_of_mem _ hx))

theorem authorLoop_of_none (ls : List Text)
    (h : ∀ x ∈ ls, List.isPrefixOf (str "Author:") x = false) :
    authorLoop ls = some none := by
  rw [← List.append_nil ls, authorLoop_append ls [] h]
  rfl

theorem colon_mem_of_jira_line (l : Text)
    (h : List.isPrefixOf (str "JIRA:") l = true) : ':' ∈ l := by
  obtain ⟨t, rfl⟩ := List.isPrefixOf_iff_prefix.mp h
  exact List.mem_append_left t (by decide)

theorem jiraLoop_isSome (ls : List Text) : (jiraLoop ls).isSome = true := by
  induction ls with
  | nil => rfl
  | cons l rest ih =>
    unfold jiraLoop
    by_cases hp : List.isPrefixOf (str "JIRA:") l = true
    · obtain ⟨seg, hseg⟩ := getElem1_eq_some (splitOnChar ':' l)
        (splitOnChar_length_two_le ':' l (colon_mem_of_jira_line l hp))
      simp [hp, hseg]
    · simp only [Bool.not_eq_true] at hp
      simp [hp, ih]

theorem check_jira_section_isSome (msg : Text) :
    (check_jira_section msg).isSome = true := by
  unfold check_jira_section
  cases h0 : jiraLoop (splitLines msg) with
  | none =>
    have h1 := jiraLoop_isSome (splitLines msg)
    rw [h0] at h1
    simp at h1
  | some o => simp

theorem authorLoop_isSome (ls : List Text)
    (h : ∀ l ∈ ls, List.isPrefixOf (str "Author:") l = true →
      3 ≤ (pySplitWs l).length) :
    (authorLoop ls).isSome = true := by
  induction ls with
  | nil => rfl
  | cons l rest ih =>
    have ihr := ih (fun x hx hpx => h x (List.mem_cons_of_mem _ hx) hpx)
    unfold authorLoop
    by_cases hp : List.isPrefixOf (str "Author:") l = true
    · have hlen := h l (List.mem_cons_self l rest) hp
      obtain ⟨t1, n, e, rest', hs⟩ :
          ∃ t1 n e rest', pySplitWs l = t1 :: n :: e :: rest' := by
        cases hA : pySplitWs l with
        | nil => rw [hA] at hlen; simp at hlen
        | cons t1 r1 =>
          cases r1 with
          | nil => rw [hA] at hlen; simp at hlen
          | cons n r2 =>
            cases r2 with
            | nil => rw [hA] at hlen; simp at hlen
            | cons e r3 => exact ⟨t1, n, e, r3, rfl⟩
      cases ha : authorLoop rest with
      | none => rw [ha] at ihr; simp at ihr
      | some o =>
        cases o with
        | none => simp [hp, hs, ha]
        | some p => simp [hp, hs, ha]
    · simp only [Bool.not_eq_true] at hp
      simp [hp, ihr]

theorem check_author_email_isSome (msg : Text)
    (h : ∀ l ∈ splitLines msg, List.isPrefixOf (str "Author:") l = true →
      3 ≤ (pySplitWs l).length) :
    (check_author_email msg).isSome = true := by
  unfold check_author_email
  cases h0 : authorLoop (splitLines msg) with
  | none =>
    have h1 := authorLoop_isSome (splitLines msg) h
    rw [h0] at h1
    simp at h1
  | some o => simp

theorem validate_commit_eq_failures (msg : Text)
    (hj : (check_jira_section msg).isSome = true)
    (ha : (check_author_email msg).isSome = true) :
    validate_commit msg = some ((failuresOf msg).isEmpty, failuresOf msg) := by
  obtain ⟨pj, hpj⟩ := Option.isSome_iff_exists.mp hj
  obtain ⟨pa, hpa⟩ := Option.isSome_iff_exists.mp ha
  obtain ⟨bj, ej⟩ := pj
  obtain ⟨ba, ea⟩ := pa
  rcases h1 : check_header msg with ⟨b1, e1⟩
  rcases h2 : check_problem_task_section msg with ⟨b2, e2⟩
  rcases h3 : check_solution_section msg with ⟨b3, e3⟩
  rcases h4 : check_test_section msg with ⟨b4, e4⟩
  simp only [validate_commit, runChecks, checks, failuresOf, optFail,
    h1, h2, h3, h4, hpj, hpa, Option.map_some]
  cases b1 <;> cases b2 <;> cases b3 <;> cases b4 <;> cases bj <;> cases ba <;>
    simp

theorem ne_of_pred_true_false {p : Char → Bool} {c c' : Char}
    (h : p c = true) (h' : p c' = false) : c ≠ c' := by
  intro he
  rw [he, h'] at h
  exact absurd h (by simp)

theorem headerMatches_iff (l : Text) : headerMatches l = true ↔ HeaderShape l := by
  constructor
  · intro h
    unfold headerMatches at h
    split at h
    · exact absurd h (by simp)
    · rename_i h1
      split at h
      · rename_i r2 heq
        split at h
        · exact absurd h (by simp)
        · rename_i h2
          split at h
          · rename_i rest heq2
            rw [Bool.and_eq_true] at h
            obtain ⟨h5, h6⟩ := h
            have e2 : r2 = r2.takeWhile isWordChar ++ (']' :: ':' :: ' ' :: rest) := by
              conv_lhs => rw [← List.takeWhile_append_dropWhile (p := isWordChar) (l := r2), heq2]
            refine ⟨l.takeWhile isWordChar, r2.takeWhile isWordChar, rest, ?_, ?_, ?_, ?_, ?_, ?_, ?_⟩
            · conv_lhs => rw [← List.takeWhile_append_dropWhile (p := isWordChar) (l := l), heq, e2]
              simp
            · intro hE
              exact h1 (by simp [hE])
            · exact List.all_eq_true.mpr (mem_takeWhile_pred isWordChar l)
            · intro hE
              exact h2 (by simp [hE])
            · exact List.all_eq_true.mpr (mem_takeWhile_pred isWordChar r2)
            · intro hE
              rw [hE] at h5
              exact absurd h5 (by simp)
            · rw [List.all_eq_true] at h6 ⊢
              intro x hx
              simpa using h6 x hx
          · exact absurd h (by simp)
      · exact absurd h (by simp)
  · rintro ⟨w1, w2, rest, rfl, h1ne, h1all, h2ne, h2all, hrne, hrall⟩
    have hw1 := List.all_eq_true.mp h1all
    have hw2 := List.all_eq_true.mp h2all
    unfold headerMatches
    rw [show w1 ++ '[' :: w2 ++ ']' :: ':' :: ' ' :: rest =
      w1 ++ '[' :: (w2 ++ ']' :: ':' :: ' ' :: rest) by simp]
    rw [takeWhile_append_stop isWordChar w1 '[' _ hw1 (by decide),
      dropWhile_append_stop isWordChar w1 '[' _ hw1 (by decide)]
    have hE1 : w1.isEmpty = false := by
      cases w1
      · exact absurd rfl h1ne
      · rfl
    rw [hE1]
    simp only [Bool.false_eq_true, if_false]
    rw [takeWhile_append_stop isWordChar w2 ']' _ hw2 (by decide),
      dropWhile_append_stop isWordChar w2 ']' _ hw2 (by decide)]
    have hE2 : w2.isEmpty = false := by
      cases w2
      · exact absurd rfl h2ne
      · rfl
    rw [hE2]
    simp only [Bool.false_eq_true, if_false]
    have hE3 : rest.isEmpty = false := by
      cases rest
      · exact absurd rfl hrne
      · rfl
    rw [List.all_eq_true] at hrall
    simp only [hE3, Bool.not_false, Bool.true_and]
    rw [List.all_eq_true]
    intro x hx
    simpa using hrall x hx

theorem jiraMatch_iff (t : Text) : jiraMatch t = true ↔ JiraShape t := by
  constructor
  · intro h
    unfold jiraMatch at h
    split at h
    · exact absurd h (by simp)
    · rename_i h1
      split at h
      · rename_i c r heq
        refine ⟨t.takeWhile isUpperAlnum, [c], r, ?_, ?_, ?_, ?_, ?_⟩
        · conv_lhs => rw [← List.takeWhile_append_dropWhile (p := isUpperAlnum) (l := t), heq]
          simp
        · intro hE
          exact h1 (by simp [hE])
        · exact List.all_eq_true.mpr (mem_takeWhile_pred isUpperAlnum t)
        · simp
        · simpa using h
      · exact absurd h (by simp)
  · rintro ⟨u, d, r, rfl, hu, hua, hd, hda⟩
    have hu' := List.all_eq_true.mp hua
    unfold jiraMatch
    rw [show u ++ '-' :: d ++ r = u ++ '-' :: (d ++ r) by simp]
    rw [takeWhile_append_stop isUpperAlnum u '-' _ hu' (by decide),
      dropWhile_append_stop isUpperAlnum u '-' _ hu' (by decide)]
    have hE1 : u.isEmpty = false := by
      cases u
      · exact absurd rfl hu
      · rfl
    rw [hE1]
    simp only [Bool.false_eq_true, if_false]
    cases d with
    | nil => exact absurd rfl hd
    | cons d0 d' =>
      have hd0 : d0.isDigit = true :=
        List.all_eq_true.mp hda d0 (List.mem_cons_self _ _)
      simpa using hd0

theorem check_header_cons_eval (a : Text) (rest : List Text) (msg : Text)
    (hsp : splitLines msg = a :: rest) (ha : a.isEmpty = false) :
    check_header msg =
      (if headerMatches a then (true, str "")
       else (false, str "Invalid header format. Should be: <type>[<SCOPE>]: <short-summary>")) := by
  unfold check_header
  rw [hsp, List.filter_cons, ha]
  simp

/- ===================== claim theorems ===================== -/

/-- C4: the header check passes a message exactly when its first
    non-empty line has the shape `<word-chars>[<word-chars>]: <rest>`;
    a message whose first line is `feat[CORE]: add x` passes, and one
    whose first line is `add x` fails with the fixed message describing
    the required shape. -/
theorem c4_check_header_characterization :
    (∀ msg : Text, (check_header msg).1 = true ↔
      ∃ l, ((splitLines msg).filter (fun x => !x.isEmpty)).head? = some l ∧ HeaderShape l) ∧
    (∀ msg : Text, (splitLines msg).head? = some (str "feat[CORE]: add x") →
      check_header msg = (true, str "")) ∧
    (∀ msg : Text, (splitLines msg).head? = some (str "add x") →
      check_header msg =
        (false, str "Invalid header format. Should be: <type>[<SCOPE>]: <short-summary>")) := by
  refine ⟨?_, ?_, ?_⟩
  · intro msg
    cases hf : (splitLines msg).filter (fun x => !x.isEmpty) with
    | nil => simp [check_header, hf]
    | cons hd tl =>
      by_cases hm : headerMatches hd = true
      · simp [check_header, hf, hm, (headerMatches_iff hd).mp hm]
      · have hns : ¬ HeaderShape hd := fun hs => hm ((headerMatches_iff hd).mpr hs)
        simp [check_header, hf, hm, hns]
  · intro msg h
    cases hsp : splitLines msg with
    | nil => rw [hsp] at h; simp at h
    | cons a rest =>
      rw [hsp] at h
      simp only [List.head?_cons, Option.some_inj] at h
      subst h
      rw [check_header_cons_eval _ rest msg hsp (by decide)]
      rw [if_pos (by decide)]
  · intro msg h
    cases hsp : splitLines msg with
    | nil => rw [hsp] at h; simp at h
    | cons a rest =>
      rw [hsp] at h
      simp only [List.head?_cons, Option.some_inj] at h
      subst h
      rw [check_header_cons_eval _ rest msg hsp (by decide)]
      rw [if_neg (by decide)]

/-- Witness for C4 at concrete inputs: the single-line message
    `feat[CORE]: add x` passes the header check and the single-line
    message `add x` fails it with the fixed message. -/
theorem c4_check_header_characterization_witness :
    check_header (str "feat[CORE]: add x") = (true, str "") ∧
    check_header (str "add x") =
      (false, str "Invalid header format. Should be: <type>[<SCOPE>]: <short-summary>") :=
  ⟨c4_check_header_characterization.2.1 (str "feat[CORE]: add x") (by decide),
   c4_check_header_characterization.2.2 (str "add x") (by decide)⟩

/-- C3: a message with no non-empty line (every line is the empty string)
    is always invalid: validate_commit returns is_valid = false with the
    header check failing first with the empty-message reason, and indeed
    every one of the six checks fails, independent of the others. -/
theorem c3_empty_message_always_invalid (msg : Text)
    (h : ∀ l ∈ splitLines msg, l = ([] : Text)) :
    validate_commit msg = some (false,
      [str "Empty commit message",
       str "Missing 'Problem/Task:' section",
       str "Missing 'Solution:' section",
       str "Missing 'Test:' section",
       str "Missing 'JIRA:' section",
       str "Missing author or email"]) := by
  have h1 : check_header msg = (false, str "Empty commit message") := by
    unfold check_header
    have hf : (splitLines msg).filter (fun x => !x.isEmpty) = [] := by
      rw [List.filter_eq_nil_iff]
      intro a ha
      rw [h a ha]
      decide
    rw [hf]
  have hany : ∀ (f : Text → Bool), f [] = false → ((splitLines msg).any f) = false := by
    intro f hf
    rw [Bool.eq_false_iff]
    intro hx
    rw [List.any_eq_true] at hx
    obtain ⟨x, hxm, hxp⟩ := hx
    rw [h x hxm, hf] at hxp
    exact absurd hxp (by simp)
  have h2 : check_problem_task_section msg = (false, str "Missing 'Problem/Task:' section") := by
    unfold check_problem_task_section
    rw [hany _ (by decide)]
    simp
  have h3 : check_solution_section msg = (false, str "Missing 'Solution:' section") := by
    unfold check_solution_section
    rw [hany _ (by decide)]
    simp
  have h4 : check_test_section msg = (false, str "Missing 'Test:' section") := by
    unfold check_test_section
    rw [hany _ (by decide)]
    simp
  have h5 : check_jira_section msg = some (false, str "Missing 'JIRA:' section") := by
    unfold check_jira_section
    rw [jiraLoop_of_none _ (fun x hx => by rw [h x hx]; decide)]
    rfl
  have h6 : check_author_email msg = some (false, str "Missing author or email") := by
    unfold check_author_email
    rw [authorLoop_of_none _ (fun x hx => by rw [h x hx]; decide)]
    rfl
  have hF : failuresOf msg =
      [str "Empty commit message",
       str "Missing 'Problem/Task:' section",
       str "Missing 'Solution:' section",
       str "Missing 'Test:' section",
       str "Missing 'JIRA:' section",
       str "Missing author or email"] := by
    simp [failuresOf, optFail, h1, h2, h3, h4, h5, h6]
  rw [validate_commit_eq_failures msg (by rw [h5]; rfl) (by rw [h6]; rfl), hF]
  rfl

/-- Witness for C3: the empty message (one empty line after splitting) is
    invalid with all six failure messages, the empty-message reason
    first. -/
theorem c3_empty_message_always_invalid_witness :
    validate_commit (str "") = some (false,
      [str "Empty commit message",
       str "Missing 'Problem/Task:' section",
       str "Missing 'Solution:' section",
       str "Missing 'Test:' section",
       str "Missing 'JIRA:' section",
       str "Missing author or email"]) :=
  c3_empty_message_always_invalid (str "") (by decide)

/-- C1 (amended): for every commit message in which every line starting
    with `Author:` has at least three whitespace-separated tokens — so
    that no check raises — validate_commit evaluates all six checks,
    returns the failure messages of exactly the failing checks in the
    fixed check order (`failuresOf`), and reports the message valid iff
    that list is empty. -/
theorem c1_validate_commit_accumulates (msg : Text)
    (h : ∀ l ∈ splitLines msg, List.isPrefixOf (str "Author:") l = true →
      3 ≤ (pySplitWs l).length) :
    validate_commit msg = some ((failuresOf msg).isEmpty, failuresOf msg) :=
  validate_commit_eq_failures msg (check_jira_section_isSome msg)
    (check_author_email_isSome msg h)

/-- Witness for C1 on a concrete two-line message: the hypothesis holds
    (there is no `Author:` line) and the result is the accumulated
    failure list with its emptiness as the validity flag. -/
theorem c1_validate_commit_accumulates_witness :
    validate_commit (str "feat[CORE]: x\nJIRA: AB-1") =
      some ((failuresOf (str "feat[CORE]: x\nJIRA: AB-1")).isEmpty,
        failuresOf (str "feat[CORE]: x\nJIRA: AB-1")) :=
  c1_validate_commit_accumulates (str "feat[CORE]: x\nJIRA: AB-1") (by decide)

/-- C1 counterexample: on the message `Author: x` validate_commit does
    not return a (flag, failure-list) pair at all — the author/email
    check raises IndexError (modelled as `none`), which propagates — so
    the claim as stated fails for this message. -/
theorem c1_counterexample_author_line_raises :
    validate_commit (str "Author: x") = none := by decide

/-- C2: the JIRA check always returns a (flag, message) pair (its colon
    split cannot fail on a line that starts with `JIRA:`), but the
    author/email check raises IndexError (modelled as `none`) on the
    message `Author: x`, whose Author line lacks the expected number of
    tokens — the code contradicts the claim there. -/
theorem c2_check_exception_status :
    (∀ msg : Text, (check_jira_section msg).isSome = true) ∧
    check_author_email (str "Author: x") = none :=
  ⟨check_jira_section_isSome, by decide⟩

theorem jiraLoop_sound (ls : List Text) (j : Text)
    (h : jiraLoop ls = some (some j)) :
    ∃ l, l ∈ ls ∧ List.isPrefixOf (str "JIRA:") l = true ∧
      ∃ seg, (splitOnChar ':' l)[1]? = some seg ∧ j = pyStrip seg := by
  induction ls with
  | nil => simp [jiraLoop] at h
  | cons l rest ih =>
    unfold jiraLoop at h
    by_cases hp : List.isPrefixOf (str "JIRA:") l = true
    · rw [if_pos hp] at h
      cases hseg : (splitOnChar ':' l)[1]? with
      | none => rw [hseg] at h; simp at h
      | some seg =>
        rw [hseg] at h
        have h' : some (some (pyStrip seg)) = some (some j) := h
        exact ⟨l, List.mem_cons_self _ _, hp, seg, hseg,
          (Option.some_inj.mp (Option.some_inj.mp h')).symm⟩
    · rw [if_neg hp] at h
      obtain ⟨l', hm, hpf, seg, hseg, hj⟩ := ih h
      exact ⟨l', List.mem_cons_of_mem _ hm, hpf, seg, hseg, hj⟩

/-- C5: the JIRA check requires a `JIRA:` line whose reference matches
    `<uppercase-alnum>-<digits>`: a message with no `JIRA:` line fails
    with the missing-section message; a message whose first `JIRA:` line
    is `JIRA: ABC-123` passes; one whose first `JIRA:` line is
    `JIRA: abc123` fails with the malformed-reference message, which
    differs from the missing-section message; and a passing message
    always contains a `JIRA:` line whose extracted reference text has the
    required shape. -/
theorem c5_check_jira_section_behaviour :
    (∀ msg : Text, (∀ x ∈ splitLines msg, List.isPrefixOf (str "JIRA:") x = false) →
      check_jira_section msg = some (false, str "Missing 'JIRA:' section")) ∧
    (∀ msg (pre post : List Text), splitLines msg = pre ++ str "JIRA: ABC-123" :: post →
      (∀ x ∈ pre, List.isPrefixOf (str "JIRA:") x = false) →
      check_jira_section msg = some (true, str "")) ∧
    (∀ msg (pre post : List Text), splitLines msg = pre ++ str "JIRA: abc123" :: post →
      (∀ x ∈ pre, List.isPrefixOf (str "JIRA:") x = false) →
      check_jira_section msg =
        some (false, str "JIRA reference should be in format: <PROJ-123>")) ∧
    (str "JIRA reference should be in format: <PROJ-123>" ≠ str "Missing 'JIRA:' section") ∧
    (∀ msg : Text, check_jira_section msg = some (true, str "") →
      ∃ l, l ∈ splitLines msg ∧ List.isPrefixOf (str "JIRA:") l = true ∧
        ∃ seg, (splitOnChar ':' l)[1]? = some seg ∧ JiraShape (pyStrip seg)) := by
  refine ⟨?_, ?_, ?_, by decide, ?_⟩
  · intro msg h
    unfold check_jira_section
    rw [jiraLoop_of_none _ h]
    rfl
  · intro msg pre post hsp hpre
    unfold check_jira_section
    rw [hsp, jiraLoop_append _ _ hpre]
    have hloop : jiraLoop (str "JIRA: ABC-123" :: post) = some (some (str "ABC-123")) := by
      simp only [jiraLoop]
      rw [if_pos (by decide)]
      decide
    rw [hloop]
    decide
  · intro msg pre post hsp hpre
    unfold check_jira_section
    rw [hsp, jiraLoop_append _ _ hpre]
    have hloop : jiraLoop (str "JIRA: abc123" :: post) = some (some (str "abc123")) := by
      simp only [jiraLoop]
      rw [if_pos (by decide)]
      decide
    rw [hloop]
    decide
  · intro msg h
    unfold check_jira_section at h
    cases hjl : jiraLoop (splitLines msg) with
    | none => rw [hjl] at h; simp at h
    | some found =>
      cases found with
      | none => rw [hjl] at h; exact absurd h (by decide)
      | some j =>
        rw [hjl] at h
        have h' : some (if jiraMatch j = true then ((true : Bool), str "")
            else (false, str "JIRA reference should be in format: <PROJ-123>")) =
            some ((true : Bool), str "") := h
        by_cases hm : jiraMatch j = true
        · obtain ⟨l, hmem, hpf, seg, hseg, hj⟩ := jiraLoop_sound _ _ hjl
          exact ⟨l, hmem, hpf, seg, hseg, hj ▸ (jiraMatch_iff j).mp hm⟩
        · rw [if_neg hm] at h'
          exact absurd (Option.some_inj.mp h') (by decide)

/-- Counterexample for C5 as stated: the message
    `JIRA: abc123\nJIRA: ABC-123` contains the line `JIRA: ABC-123` yet
    fails the JIRA check — the loop breaks at the first `JIRA:` line, so
    only the first JIRA line is ever consulted. -/
theorem c5_counterexample_second_jira_line_ignored :
    check_jira_section (str "JIRA: abc123\nJIRA: ABC-123") =
      some (false, str "JIRA reference should be in format: <PROJ-123>") := by decide

/-- Witness for C5 at concrete messages: no JIRA line, a well-formed
    first JIRA line (preceded by a non-JIRA line), a malformed first JIRA
    line, and the existential consequence of a passing check. -/
theorem c5_check_jira_section_behaviour_witness :
    check_jira_section (str "hello") = some (false, str "Missing 'JIRA:' section") ∧
    check_jira_section (str "x\nJIRA: ABC-123") = some (true, str "") ∧
    check_jira_section (str "JIRA: abc123") =
      some (false, str "JIRA reference should be in format: <PROJ-123>") ∧
    (∃ l, l ∈ splitLines (str "JIRA: ABC-123") ∧
      List.isPrefixOf (str "JIRA:") l = true ∧
      ∃ seg, (splitOnChar ':' l)[1]? = some seg ∧ JiraShape (pyStrip seg)) :=
  ⟨c5_check_jira_section_behaviour.1 (str "hello") (by decide),
   c5_check_jira_section_behaviour.2.1 (str "x\nJIRA: ABC-123") [str "x"] []
     (by decide) (by decide),
   c5_check_jira_section_behaviour.2.2.1 (str "JIRA: abc123") [] []
     (by decide) (by decide),
   c5_check_jira_section_behaviour.2.2.2.2 (str "JIRA: ABC-123") (by decide)⟩

theorem not_space_of_pred {p : Char → Bool} (hs : p ' ' = false) (ht : p '\t' = false)
    (hn : p '\n' = false) (hr : p '\r' = false) (hv : p (Char.ofNat 11) = false)
    (hf2 : p (Char.ofNat 12) = false) {c : Char} (h : p c = true) :
    pyIsSpace c = false := by
  cases hsp : pyIsSpace c
  · rfl
  · unfold pyIsSpace at hsp
    simp only [Bool.or_eq_true, beq_iff_eq] at hsp
    rcases hsp with ((((rfl | rfl) | rfl) | rfl) | rfl) | rfl <;> simp_all

theorem bne_colon_of_upperAlnum {c : Char} (h : isUpperAlnum c = true) :
    (c != ':') = true := by
  rw [bne_iff_ne]
  exact ne_of_pred_true_false h (by decide)

theorem bne_colon_of_digit {c : Char} (h : c.isDigit = true) :
    (c != ':') = true := by
  rw [bne_iff_ne]
  exact ne_of_pred_true_false h (by decide)

/-- C9: the JIRA reference is matched only as a prefix — whatever follows
    `<uppercase-alnum>-<digits>` in the first `JIRA:` line (even
    arbitrary trailing garbage) still passes the check. -/
theorem c9_jira_reference_prefix_match (msg : Text) (pre post : List Text) (u d t : Text)
    (hsp : splitLines msg = pre ++ (str "JIRA: " ++ (u ++ '-' :: d ++ t)) :: post)
    (hpre : ∀ x ∈ pre, List.isPrefixOf (str "JIRA:") x = false)
    (hu : u ≠ []) (hua : u.all isUpperAlnum = true)
    (hd : d ≠ []) (hda : d.all Char.isDigit = true) :
    check_jira_section msg = some (true, str "") := by
  have huac := List.all_eq_true.mp hua
  have hdac := List.all_eq_true.mp hda
  have hpL : List.isPrefixOf (str "JIRA:") (str "JIRA: " ++ (u ++ '-' :: d ++ t)) = true := by
    rw [List.isPrefixOf_iff_prefix]
    refine ⟨' ' :: (u ++ '-' :: d ++ t), ?_⟩
    rw [show str "JIRA: " = str "JIRA:" ++ [' '] from by decide]
    simp
  have hsplit : splitOnChar ':' (str "JIRA: " ++ (u ++ '-' :: d ++ t)) =
      [str "JIRA"] ++ splitOnChar ':' (' ' :: (u ++ '-' :: d ++ t)) := by
    rw [show str "JIRA: " ++ (u ++ '-' :: d ++ t) =
        str "JIRA" ++ ':' :: (' ' :: (u ++ '-' :: d ++ t)) from by
      rw [show str "JIRA: " = str "JIRA" ++ [':', ' '] from by decide]
      simp]
    rw [splitOnChar_append_sep, splitOnChar_of_forall_ne ':' (str "JIRA") (by decide)]
  obtain ⟨ss, hss⟩ := splitOnChar_head ':' (' ' :: (u ++ '-' :: d ++ t))
  have hseg : (splitOnChar ':' (str "JIRA: " ++ (u ++ '-' :: d ++ t)))[1]? =
      some ((' ' :: (u ++ '-' :: d ++ t)).takeWhile (fun c => c != ':')) := by
    rw [hsplit, hss]
    simp
  have hTW : (' ' :: (u ++ '-' :: d ++ t)).takeWhile (fun c => c != ':') =
      ' ' :: (u ++ '-' :: (d ++ t.takeWhile (fun c => c != ':'))) := by
    rw [List.takeWhile_cons, if_pos (show ((' ' != ':') = true) from by decide)]
    rw [show u ++ '-' :: d ++ t = u ++ '-' :: (d ++ t) from by simp]
    rw [takeWhile_append_all _ u _ (fun c hc => bne_colon_of_upperAlnum (huac c hc))]
    rw [List.takeWhile_cons, if_pos (show (('-' != ':') = true) from by decide)]
    rw [takeWhile_append_all _ d _ (fun c hc => bne_colon_of_digit (hdac c hc))]
  obtain ⟨d', dl, hdec⟩ : ∃ d' dl, d = d' ++ [dl] := by
    rcases List.eq_nil_or_concat d with h0 | ⟨d', dl, h0⟩
    · exact absurd h0 hd
    · exact ⟨d', dl, by simpa using h0⟩
  have hdl : dl.isDigit = true := hdac dl (by rw [hdec]; simp)
  obtain ⟨u0, u', rfl⟩ : ∃ u0 u', u = u0 :: u' := by
    cases u with
    | nil => exact absurd rfl hu
    | cons a b => exact ⟨a, b, rfl⟩
  have hu0 : pyIsSpace u0 = false :=
    not_space_of_pred (by decide) (by decide) (by decide) (by decide) (by decide)
      (by decide) (huac u0 (List.mem_cons_self _ _))
  have hstrip : pyStrip (' ' :: ((u0 :: u') ++ '-' :: (d ++ t.takeWhile (fun c => c != ':')))) =
      (u0 :: u') ++ '-' :: (d ++ rstripFn (t.takeWhile (fun c => c != ':'))) := by
    unfold pyStrip
    rw [show ' ' :: ((u0 :: u') ++ '-' :: (d ++ t.takeWhile (fun c => c != ':'))) =
        ((' ' :: ((u0 :: u') ++ '-' :: d')) ++ [dl]) ++ t.takeWhile (fun c => c != ':') from by
      rw [hdec]; simp]
    rw [rstripFn_append _ dl _ (not_space_of_pred (by decide) (by decide) (by decide)
      (by decide) (by decide) (by decide) hdl)]
    rw [show ((' ' :: ((u0 :: u') ++ '-' :: d')) ++ [dl]) ++
        rstripFn (t.takeWhile (fun c => c != ':')) =
        ' ' :: (u0 :: (u' ++ '-' :: (d ++ rstripFn (t.takeWhile (fun c => c != ':'))))) from by
      rw [hdec]; simp]
    rw [List.dropWhile_cons, if_pos (show (pyIsSpace ' ' = true) from by decide)]
    rw [List.dropWhile_cons, if_neg (by rw [hu0]; simp)]
    simp
  have hmatch : jiraMatch ((u0 :: u') ++ '-' :: (d ++ rstripFn (t.takeWhile (fun c => c != ':')))) = true := by
    refine (jiraMatch_iff _).mpr ⟨u0 :: u', d, rstripFn (t.takeWhile (fun c => c != ':')), ?_, hu, hua, hd, hda⟩
    simp
  unfold check_jira_section
  rw [hsp, jiraLoop_append _ _ hpre]
  have hloop : jiraLoop ((str "JIRA: " ++ ((u0 :: u') ++ '-' :: d ++ t)) :: post) =
      some (some ((u0 :: u') ++ '-' :: (d ++ rstripFn (t.takeWhile (fun c => c != ':'))))) := by
    simp only [jiraLoop]
    rw [if_pos hpL, hseg]
    show some (some (pyStrip ((' ' :: ((u0 :: u') ++ '-' :: d ++ t)).takeWhile (fun c => c != ':')))) = _
    rw [show (' ' :: ((u0 :: u') ++ '-' :: d ++ t)) = (' ' :: ((u0 :: u') ++ '-' :: d ++ t)) from rfl, hTW, hstrip]
  rw [hloop]
  show some (if jiraMatch ((u0 :: u') ++ '-' :: (d ++ rstripFn (t.takeWhile (fun c => c != ':')))) = true
      then ((true : Bool), str "")
      else (false, str "JIRA reference should be in format: <PROJ-123>")) = some ((true : Bool), str "")
  rw [if_pos hmatch]

/-- Witness for C9: `JIRA: ABC-123garbage` passes the JIRA check. -/
theorem c9_jira_reference_prefix_match_witness :
    check_jira_section (str "JIRA: ABC-123garbage") = some (true, str "") :=
  c9_jira_reference_prefix_match (str "JIRA: ABC-123garbage") [] []
    (str "ABC") (str "123") (str "garbage") (by decide) (by decide) (by decide)
    (by decide) (by decide) (by decide)

theorem authorLoop_single (pre post : List Text) (l tok n e : Text) (rest : List Text)
    (hpre : ∀ x ∈ pre, List.isPrefixOf (str "Author:") x = false)
    (hpost : ∀ x ∈ post, List.isPrefixOf (str "Author:") x = false)
    (hp : List.isPrefixOf (str "Author:") l = true)
    (hsplitw : pySplitWs l = tok :: n :: e :: rest) :
    authorLoop (pre ++ l :: post) = some (some (pyStrip n, pyStrip e)) := by
  rw [authorLoop_append _ _ hpre]
  unfold authorLoop
  rw [if_pos hp, hsplitw, authorLoop_of_none _ hpost]

/-- C6: the author/email check fails with the missing-author message when
    no line starts with `Author:`; for a message whose only
    `Author:` line has tokens `tok n e ...`, the check passes exactly
    when the email token equals `<` + name + `@is.ic` + `>`, and
    otherwise fails with a message naming both the name and the bad
    email; concretely, `Author: jdoe <jdoe@is.ic>` passes and
    `Author: jdoe <jdoe@wrong.com>` fails with a message containing both
    `jdoe` and `<jdoe@wrong.com>`. -/
theorem c6_check_author_email_behaviour :
    (∀ msg : Text, (∀ x ∈ splitLines msg, List.isPrefixOf (str "Author:") x = false) →
      check_author_email msg = some (false, str "Missing author or email")) ∧
    (∀ msg (pre post : List Text) (l tok n e : Text) (rest : List Text),
      splitLines msg = pre ++ l :: post →
      (∀ x ∈ pre, List.isPrefixOf (str "Author:") x = false) →
      (∀ x ∈ post, List.isPrefixOf (str "Author:") x = false) →
      List.isPrefixOf (str "Author:") l = true →
      pySplitWs l = tok :: n :: e :: rest →
      ((check_author_email msg = some (true, str "") ↔
          e = str "<" ++ n ++ str "@is.ic>") ∧
       (e ≠ str "<" ++ n ++ str "@is.ic>" →
         check_author_email msg =
           some (false, n ++ ' ' :: e ++ str ": email does not format: <username>@is.ic")))) ∧
    (check_author_email (str "Author: jdoe <jdoe@is.ic>") = some (true, str "")) ∧
    (check_author_email (str "Author: jdoe <jdoe@wrong.com>") =
      some (false, str "jdoe <jdoe@wrong.com>: email does not format: <username>@is.ic")) ∧
    str "jdoe" <:+: str "jdoe <jdoe@wrong.com>: email does not format: <username>@is.ic" ∧
    str "<jdoe@wrong.com>" <:+:
      str "jdoe <jdoe@wrong.com>: email does not format: <username>@is.ic" := by
  refine ⟨?_, ?_, by decide, by decide, by decide, by decide⟩
  · intro msg h
    unfold check_author_email
    rw [authorLoop_of_none _ h]
    rfl
  · intro msg pre post l tok n e rest hsp hpre hpost hp hsplitw
    have hmemtk := pySplitWs_tokens_nonspace l
    have hn : pyStrip n = n :=
      pyStrip_of_forall n (fun c hc => hmemtk n (by rw [hsplitw]; simp) c hc)
    have he : pyStrip e = e :=
      pyStrip_of_forall e (fun c hc => hmemtk e (by rw [hsplitw]; simp) c hc)
    have hA : check_author_email msg =
        some (if ('<' :: n ++ str "@is.ic>") = e then ((true : Bool), str "")
          else (false, n ++ ' ' :: e ++ str ": email does not format: <username>@is.ic")) := by
      unfold check_author_email
      rw [hsp, authorLoop_single pre post l tok n e rest hpre hpost hp hsplitw]
      show some (if ('<' :: pyStrip n ++ str "@is.ic>") = pyStrip e then ((true : Bool), str "")
          else (false, pyStrip n ++ ' ' :: pyStrip e ++
            str ": email does not format: <username>@is.ic")) = _
      rw [hn, he]
    constructor
    · rw [hA]
      by_cases hc : ('<' :: n ++ str "@is.ic>") = e
      · rw [if_pos hc]
        exact ⟨fun _ => hc.symm, fun _ => rfl⟩
      · rw [if_neg hc]
        exact ⟨fun h' => absurd h' (by simp), fun h' => absurd h'.symm hc⟩
    · intro hne
      rw [hA, if_neg (fun hc => hne hc.symm)]

/-- Counterexample for C6 as stated: a message containing the line
    `Author: jdoe <jdoe@is.ic>` can still fail the check — the loop does
    not break, so the last `Author:` line overwrites the earlier one. -/
theorem c6_counterexample_last_author_line_wins :
    check_author_email
        (str "Author: jdoe <jdoe@is.ic>\nAuthor: jdoe <jdoe@wrong.com>") =
      some (false, str "jdoe <jdoe@wrong.com>: email does not format: <username>@is.ic") := by
  decide

/-- Witness for C6 at concrete messages: a message with no Author line,
    the matching-email pass case (via the iff), and the mismatching-email
    failure message. -/
theorem c6_check_author_email_behaviour_witness :
    check_author_email (str "hello") = some (false, str "Missing author or email") ∧
    check_author_email (str "Author: jdoe <jdoe@is.ic>") = some (true, str "") ∧
    check_author_email (str "Author: jdoe <jdoe@wrong.com>") =
      some (false, str "jdoe" ++ ' ' :: str "<jdoe@wrong.com>" ++
        str ": email does not format: <username>@is.ic") :=
  ⟨c6_check_author_email_behaviour.1 (str "hello") (by decide),
   ((c6_check_author_email_behaviour.2.1 (str "Author: jdoe <jdoe@is.ic>") [] []
      (str "Author: jdoe <jdoe@is.ic>") (str "Author:") (str "jdoe") (str "<jdoe@is.ic>") []
      (by decide) (by decide) (by decide) (by decide) (by decide)).1).mpr (by decide),
   (c6_check_author_email_behaviour.2.1 (str "Author: jdoe <jdoe@wrong.com>") [] []
      (str "Author: jdoe <jdoe@wrong.com>") (str "Author:") (str "jdoe") (str "<jdoe@wrong.com>") []
      (by decide) (by decide) (by decide) (by decide) (by decide)).2 (by decide)⟩

theorem clang_filter_eq_filter (l : List Text) :
    ClangFormatHelper.filter_changed_files l = l.filter clangSelects := by
  induction l with
  | nil => rfl
  | cons p rest ih =>
    by_cases h1 : (splitext p).2 ∈ ClangFormatHelper.allowedExtensions
    · simp [ClangFormatHelper.filter_changed_files, List.filter_cons, clangSelects,
        ClangFormatHelper.should_include_extensionless_file, h1, ih]
    · by_cases h2 : ((splitext p).2.isEmpty &&
          ClangFormatHelper.should_include_extensionless_file p) = true
      · simp only [Bool.and_eq_true] at h2
        simp [ClangFormatHelper.filter_changed_files, List.filter_cons, clangSelects,
          ClangFormatHelper.should_include_extensionless_file, h1, h2.1, h2.2, ih]
      · simp only [Bool.and_eq_true, not_and] at h2
        by_cases h3 : (splitext p).2.isEmpty = true
        · simp [ClangFormatHelper.filter_changed_files, List.filter_cons, clangSelects,
            ClangFormatHelper.should_include_extensionless_file, h1, h3, h2 h3, ih]
        · simp only [Bool.not_eq_true] at h3
          simp [ClangFormatHelper.filter_changed_files, List.filter_cons, clangSelects,
            ClangFormatHelper.should_include_extensionless_file, h1, h3, ih]

theorem ruff_filter_eq_filter (l : List Text) :
    RuffFormatHelper.filter_changed_files l = l.filter ruffSelects := by
  induction l with
  | nil => rfl
  | cons p rest ih =>
    by_cases h1 : (splitext p).2 = str ".py"
    · simp [RuffFormatHelper.filter_changed_files, List.filter_cons, ruffSelects, h1, ih]
    · simp [RuffFormatHelper.filter_changed_files, List.filter_cons, ruffSelects, h1, ih]

/-- C7: the native-code filter selects (order-preserving and without
    deduplication, i.e. as a `List.filter`) exactly the paths whose
    extension is in the fixed allow-list plus the extensionless paths
    under `libcxx/include`; the Python filter selects exactly the `.py`
    paths; both filters are idempotent; and on the example list
    `["a.cpp","b.py","c.h","d.txt"]` they yield `["a.cpp","c.h"]` and
    `["b.py"]` respectively, in order. -/
theorem c7_filter_classification :
    (∀ l : List Text, ClangFormatHelper.filter_changed_files l = l.filter clangSelects) ∧
    (∀ l : List Text, RuffFormatHelper.filter_changed_files l = l.filter ruffSelects) ∧
    (∀ l : List Text, ClangFormatHelper.filter_changed_files
      (ClangFormatHelper.filter_changed_files l) = ClangFormatHelper.filter_changed_files l) ∧
    (∀ l : List Text, RuffFormatHelper.filter_changed_files
      (RuffFormatHelper.filter_changed_files l) = RuffFormatHelper.filter_changed_files l) ∧
    ClangFormatHelper.filter_changed_files
      [str "a.cpp", str "b.py", str "c.h", str "d.txt"] = [str "a.cpp", str "c.h"] ∧
    RuffFormatHelper.filter_changed_files
      [str "a.cpp", str "b.py", str "c.h", str "d.txt"] = [str "b.py"] := by
  refine ⟨clang_filter_eq_filter, ruff_filter_eq_filter, ?_, ?_, by decide, by decide⟩
  · intro l
    rw [clang_filter_eq_filter (ClangFormatHelper.filter_changed_files l),
      clang_filter_eq_filter l, List.filter_filter]
    simp
  · intro l
    rw [ruff_filter_eq_filter (RuffFormatHelper.filter_changed_files l),
      ruff_filter_eq_filter l, List.filter_filter]
    simp

/-- C8: with a non-empty filtered file list, the outcome of a formatter
    run is a function of the subprocess exit code and captured stdout:
    exit 0 is Clean with a successful run and no warning; a non-zero exit
    with non-empty stdout is NeedsChanges with the detected-issues
    warning; a non-zero exit with empty stdout is InfrastructureFailure
    with the failed-without-a-diff warning; and for each formatter the
    two failure warnings are different texts.  Both failure cases report
    failure. -/
theorem c8_outcome_classification :
    (∀ (files : List Text) (proc : ProcResult),
      ClangFormatHelper.filter_changed_files files ≠ [] →
      (proc.returncode = 0 →
        classifyDiff (ClangFormatHelper.format_run files proc) = ToolRunResult.Clean ∧
        ClangFormatHelper.run files proc = (true, [])) ∧
      (proc.returncode ≠ 0 → proc.stdout ≠ [] →
        classifyDiff (ClangFormatHelper.format_run files proc) = ToolRunResult.NeedsChanges ∧
        ClangFormatHelper.run files proc = (false,
          [needsChangesWarning ClangFormatHelper.friendly_name ClangFormatHelper.name])) ∧
      (proc.returncode ≠ 0 → proc.stdout = [] →
        classifyDiff (ClangFormatHelper.format_run files proc) =
          ToolRunResult.InfrastructureFailure ∧
        ClangFormatHelper.run files proc = (false,
          [infraWarning ClangFormatHelper.friendly_name]))) ∧
    (∀ (files : List Text) (proc : ProcResult),
      RuffFormatHelper.filter_changed_files files ≠ [] →
      (proc.returncode = 0 →
        classifyDiff (RuffFormatHelper.format_run files proc) = ToolRunResult.Clean ∧
        RuffFormatHelper.run files proc = (true, [])) ∧
      (proc.returncode ≠ 0 → proc.stdout ≠ [] →
        classifyDiff (RuffFormatHelper.format_run files proc) = ToolRunResult.NeedsChanges ∧
        RuffFormatHelper.run files proc = (false,
          [needsChangesWarning RuffFormatHelper.friendly_name RuffFormatHelper.name])) ∧
      (proc.returncode ≠ 0 → proc.stdout = [] →
        classifyDiff (RuffFormatHelper.format_run files proc) =
          ToolRunResult.InfrastructureFailure ∧
        RuffFormatHelper.run files proc = (false,
          [infraWarning RuffFormatHelper.friendly_name]))) ∧
    needsChangesWarning ClangFormatHelper.friendly_name ClangFormatHelper.name ≠
      infraWarning ClangFormatHelper.friendly_name ∧
    needsChangesWarning RuffFormatHelper.friendly_name RuffFormatHelper.name ≠
      infraWarning RuffFormatHelper.friendly_name := by
  refine ⟨?_, ?_, by decide, by decide⟩
  · intro files proc hne
    have hE : (ClangFormatHelper.filter_changed_files files).isEmpty = false := by
      cases h : ClangFormatHelper.filter_changed_files files
      · exact absurd h hne
      · rfl
    refine ⟨?_, ?_, ?_⟩
    · intro h0
      simp [ClangFormatHelper.run, ClangFormatHelper.format_run, formatHelperRun,
        classifyDiff, hE, h0]
    · intro h0 h1
      simp [ClangFormatHelper.run, ClangFormatHelper.format_run, formatHelperRun,
        classifyDiff, hE, h0, List.length_pos, h1]
    · intro h0 h1
      simp [ClangFormatHelper.run, ClangFormatHelper.format_run, formatHelperRun,
        classifyDiff, hE, h0, h1]
  · intro files proc hne
    have hE : (RuffFormatHelper.filter_changed_files files).isEmpty = false := by
      cases h : RuffFormatHelper.filter_changed_files files
      · exact absurd h hne
      · rfl
    refine ⟨?_, ?_, ?_⟩
    · intro h0
      simp [RuffFormatHelper.run, RuffFormatHelper.format_run, formatHelperRun,
        classifyDiff, hE, h0]
    · intro h0 h1
      simp [RuffFormatHelper.run, RuffFormatHelper.format_run, formatHelperRun,
        classifyDiff, hE, h0, List.length_pos, h1]
    · intro h0 h1
      simp [RuffFormatHelper.run, RuffFormatHelper.format_run, formatHelperRun,
        classifyDiff, hE, h0, h1]

/-- Witness for C8: concrete runs of both helpers — a failing exit with a
    diff yields the needs-changes warning, a failing exit without a diff
    yields the infrastructure warning, and a zero exit is clean. -/
theorem c8_outcome_classification_witness :
    ClangFormatHelper.run [str "a.cpp"] ⟨1, str "d", str ""⟩ = (false,
      [needsChangesWarning ClangFormatHelper.friendly_name ClangFormatHelper.name]) ∧
    ClangFormatHelper.run [str "a.cpp"] ⟨2, str "", str "boom"⟩ = (false,
      [infraWarning ClangFormatHelper.friendly_name]) ∧
    RuffFormatHelper.run [str "b.py"] ⟨0, str "", str ""⟩ = (true, []) :=
  ⟨((c8_outcome_classification.1 [str "a.cpp"] ⟨1, str "d", str ""⟩
      (by decide)).2.1 (by decide) (by decide)).2,
   ((c8_outcome_classification.1 [str "a.cpp"] ⟨2, str "", str "boom"⟩
      (by decide)).2.2 (by decide) (by decide)).2,
   ((c8_outcome_classification.2.1 [str "b.py"] ⟨0, str "", str ""⟩
      (by decide)).1 (by decide)).2⟩

theorem gatherAux_mono (fs : List Text) (acc : List Text) (x : Text) (hx : x ∈ acc) :
    x ∈ ClangFormatHelper.gatherAux fs acc := by
  induction fs generalizing acc with
  | nil => simpa [ClangFormatHelper.gatherAux] using hx
  | cons f fs' ih =>
    show x ∈ ClangFormatHelper.gatherAux fs'
      (if pyStripDots (splitext f).2 ∈ acc then acc else acc ++ [pyStripDots (splitext f).2])
    by_cases h : pyStripDots (splitext f).2 ∈ acc
    · rw [if_pos h]
      exact ih acc hx
    · rw [if_neg h]
      exact ih _ (List.mem_append_left _ hx)

theorem gatherAux_mem (f : Text) (fs : List Text) :
    ∀ acc : List Text, f ∈ fs →
      pyStripDots (splitext f).2 ∈ ClangFormatHelper.gatherAux fs acc := by
  induction fs with
  | nil => intro acc h; simp at h
  | cons g gs ih =>
    intro acc hf
    rcases List.mem_cons.mp hf with rfl | hf'
    · show pyStripDots (splitext f).2 ∈ ClangFormatHelper.gatherAux gs
        (if pyStripDots (splitext f).2 ∈ acc then acc else acc ++ [pyStripDots (splitext f).2])
      by_cases h : pyStripDots (splitext f).2 ∈ acc
      · rw [if_pos h]
        exact gatherAux_mono gs acc _ h
      · rw [if_neg h]
        exact gatherAux_mono gs _ _ (List.mem_append_right _ (List.mem_singleton.mpr rfl))
    · exact ih _ hf'

theorem mem_split_joinComma (L : List Text) (h : [] ∈ L) :
    [] ∈ splitOnChar ',' (joinComma L) := by
  induction L with
  | nil => simp at h
  | cons x ys ih =>
    cases ys with
    | nil =>
      simp only [List.mem_singleton] at h
      rw [show joinComma [x] = x from rfl, ← h]
      simp [splitOnChar]
    | cons y ys' =>
      rw [show joinComma (x :: y :: ys') = x ++ ',' :: joinComma (y :: ys') from rfl,
        splitOnChar_append_sep]
      rcases List.mem_cons.mp h with h0 | h1
      · rw [← h0]
        exact List.mem_append_left _ (by simp [splitOnChar])
      · exact List.mem_append_right _ (ih h1)

/-- C10: if the native-code filter selects an extensionless file, the set
    of distinct stripped extensions gathered for the `--extensions`
    argument contains the empty string, and the comma-joined value passed
    to the external tool therefore contains an empty entry. -/
theorem c10_extensionless_empty_extension (files : List Text) (f : Text)
    (hf : f ∈ ClangFormatHelper.filter_changed_files files)
    (hext : (splitext f).2 = []) :
    [] ∈ ClangFormatHelper.gatherExtensions (ClangFormatHelper.filter_changed_files files) ∧
    [] ∈ splitOnChar ',' (ClangFormatHelper.extensionsValue
      (ClangFormatHelper.filter_changed_files files)) := by
  have h1 : [] ∈ ClangFormatHelper.gatherExtensions
      (ClangFormatHelper.filter_changed_files files) := by
    have h2 := gatherAux_mem f (ClangFormatHelper.filter_changed_files files) [] hf
    rw [hext] at h2
    simpa [ClangFormatHelper.gatherExtensions, pyStripDots] using h2
  exact ⟨h1, mem_split_joinComma _ h1⟩

/-- Witness for C10: the extensionless header `libcxx/include/span` is
    selected, the gathered extension set contains the empty string, and
    the comma-joined `--extensions` value has an empty entry. -/
theorem c10_extensionless_empty_extension_witness :
    [] ∈ ClangFormatHelper.gatherExtensions
      (ClangFormatHelper.filter_changed_files [str "a.cpp", str "libcxx/include/span"]) ∧
    [] ∈ splitOnChar ',' (ClangFormatHelper.extensionsValue
      (ClangFormatHelper.filter_changed_files [str "a.cpp", str "libcxx/include/span"])) :=
  c10_extensionless_empty_extension [str "a.cpp", str "libcxx/include/span"]
    (str "libcxx/include/span") (by decide) (by decide)

